import Mathlib

/-!
Verification development for the USB CSV auto-copy service
(`usb_csv_auto_copy.py`): a shallow embedding of the sync engine's pure
core — copy-mode normalization, CSV merge, variant reconciliation, the
per-file copy loop of `scan_and_copy`, the quiescence/eject decision and
the state-save discipline — together with theorems settling the frozen
claims about that code.

Modelling conventions:
- Machine integers (sizes, mtimes) are `Int`; Python `int(st_mtime)` is
  the stored `mtime` field (already whole seconds).
- File contents are the parsed CSV rows (`List (List String)`); byte-level
  identity is identified with row-list identity (the source compares
  sha256 hashes of the bytes, modelled as content equality), and the byte
  size of an encoded CSV is a fixed size function `csvSize`.
- Fallible I/O is driven by an explicit per-destination-name fault oracle
  `fault : String → Bool`; a faulted name makes every write of that
  destination file raise (caught by the source's per-file handler).
- Wall-clock sampling loops are given an explicit iteration budget and a
  sample oracle indexed by sample number.
-/

namespace UsbCopy

/-! ## String helpers (ASCII models of the Python string operations used) -/

/-- Lowercase every character, modelling Python `str.lower()` on the ASCII
names this program manipulates. -/
def lowerChars (cs : List Char) : List Char := cs.map Char.toLower

/-- Strip leading and trailing whitespace then lowercase, modelling
`str.strip().lower()` at usb_csv_auto_copy.py line 576. -/
def strTrimLower (s : String) : String :=
  ⟨lowerChars (((s.toList.dropWhile Char.isWhitespace).reverse.dropWhile
      Char.isWhitespace).reverse)⟩

/-- If `p` is an initial segment of `s`, return the remainder. -/
def stripStart? : List Char → List Char → Option (List Char)
  | [], s => some s
  | _ :: _, [] => none
  | p :: ps, c :: cs => if p = c then stripStart? ps cs else none

/-- If `p` is a final segment of `s`, return what precedes it. -/
def stripEnd? (p s : List Char) : Option (List Char) :=
  (stripStart? p.reverse s.reverse).map List.reverse

/-- `True` when `suf` is a final segment of `s`; models the `*{suffix}`
glob filter (case-sensitive on Linux). -/
def strEndsWith (s suf : String) : Bool :=
  (stripEnd? suf.toList s.toList).isSome

/-- Index of the last dot in the character list, if any. -/
def lastDotIdx (cs : List Char) : Option Nat :=
  (cs.foldl (fun (st : Nat × Option Nat) c =>
    (st.1 + 1, if c = '.' then some st.1 else st.2)) (0, none)).2

/-- Model of `os.path.splitext` on a bare file name: split at the last
dot, provided some character before it is not itself a dot (so names of
only leading dots have no extension). -/
def splitExtCore (cs : List Char) : List Char × List Char :=
  match lastDotIdx cs with
  | none => (cs, [])
  | some i =>
    if (cs.take i).any (fun c => c ≠ '.') then (cs.take i, cs.drop i)
    else (cs, [])

/-- The extension part of `os.path.splitext name`. -/
def extOf (name : String) : String := ⟨(splitExtCore name.toList).2⟩

/-- Case-insensitive match of the regex `^stem_\d+suffix$` against a
(lowercased) name whose lowered stem and suffix are given: the name must
be the stem, an underscore, one or more digits, then the suffix. -/
def underscoreVariantPat (stemL sufL nameL : List Char) : Bool :=
  match stripStart? (stemL ++ ['_']) nameL with
  | none => false
  | some rest =>
    match stripEnd? sufL rest with
    | none => false
    | some ds => !ds.isEmpty && ds.all Char.isDigit

/-- The `is_variant` test of `remove_duplicate_variants` (lines 341-343):
`name != base_name` (case-sensitive) and the case-insensitive regex
`^{stem}_\d+{suffix}$` matches.  The same predicate governs which files
`normalize_and_cleanup_variants` collects (lines 363-370). -/
def isUnderscoreVariant (base name : String) : Bool :=
  let se := splitExtCore base.toList
  name != base &&
    underscoreVariantPat (lowerChars se.1) (lowerChars se.2)
      (lowerChars name.toList)

/-! ## CSV merge model (`merge_csv_files`, lines 254-328) -/

/-- Digit value of an ASCII digit list, `none` when any char is not a
digit or the list is empty. -/
def digitsVal : List Char → Option Nat
  | [] => none
  | cs =>
    if cs.all Char.isDigit then
      some (cs.foldl (fun a c => a * 10 + (c.toNat - 48)) 0)
    else none

/-- Model of `datetime.fromisoformat` restricted to the canonical
`YYYY-MM-DD` and `YYYY-MM-DD[T ]HH:MM:SS` shapes this repository writes,
returning a key that is monotone in chronological order (day-of-month is
bounded by 31 rather than the true calendar bound). -/
def isoKey? (s : String) : Option Nat :=
  match s.toList with
  | [y1, y2, y3, y4, '-', m1, m2, '-', d1, d2] =>
    match digitsVal [y1, y2, y3, y4], digitsVal [m1, m2], digitsVal [d1, d2] with
    | some y, some mo, some d =>
      if 1 ≤ mo ∧ mo ≤ 12 ∧ 1 ≤ d ∧ d ≤ 31 then
        some (((((y * 13 + mo) * 32 + d) * 24 + 0) * 60 + 0) * 60 + 0)
      else none
    | _, _, _ => none
  | [y1, y2, y3, y4, '-', m1, m2, '-', d1, d2, sep, h1, h2, ':', n1, n2, ':', s1, s2] =>
    if sep = 'T' ∨ sep = ' ' then
      match digitsVal [y1, y2, y3, y4], digitsVal [m1, m2], digitsVal [d1, d2],
          digitsVal [h1, h2], digitsVal [n1, n2], digitsVal [s1, s2] with
      | some y, some mo, some d, some h, some n, some sc =>
        if 1 ≤ mo ∧ mo ≤ 12 ∧ 1 ≤ d ∧ d ≤ 31 ∧ h ≤ 23 ∧ n ≤ 59 ∧ sc ≤ 59 then
          some (((((y * 13 + mo) * 32 + d) * 24 + h) * 60 + n) * 60 + sc)
        else none
      | _, _, _, _, _, _ => none
    else none
  | _ => none

/-- Sort key of a row for the `Time` column at index `i`: the sort at
line 312 raises (and is abandoned) when the cell is missing; an empty
cell keys as a string and any unparsable cell raises, so a total
numeric key exists exactly when the cell is present, nonempty and
parses. -/
def timeKey? (i : Nat) (r : List String) : Option Nat :=
  match r.get? i with
  | none => none
  | some v => if v = "" then none else isoKey? v

/-- Total version of the key used once every row is known to parse. -/
def timeKey (i : Nat) (r : List String) : Nat := (timeKey? i r).getD 0

/-- First row of a CSV file is the header, the rest are data rows
(csv.reader with `i == 0` split, lines 268-281). -/
def headerSplit : List (List String) → List String × List (List String)
  | [] => ([], [])
  | h :: t => (h, t)

/-- Seen-set deduplication keeping the first occurrence of each row, as
built by the loop over `dst_rows` then `src_rows` (lines 289-300). -/
def dedupKeepFirst (l : List (List String)) : List (List String) :=
  l.foldl (fun acc r => if r ∈ acc then acc else acc ++ [r]) []

/-- Byte-size model of the csv.writer output for a row list: field bytes
plus one separator per field plus the newline (quoting ignored; only
used as an abstract byte count). -/
def csvSize (rows : List (List String)) : Int :=
  Int.ofNat (rows.map (fun r => (r.map String.length).sum + r.length + 1)).sum

/-- Shallow embedding of `merge_csv_files` (lines 254-328).  `dstFile` is
`none` when the destination does not exist.  The result is `some` of the
rewritten destination rows on success and `none` where the source
returns `False` (header mismatch).  The per-call I/O exceptions of the
source are injected by the caller's fault oracle, not here.  The
exception swallowed around `merged.sort` (line 313-315) is modelled as
leaving the order unchanged. -/
def merge_csv_files (srcFile : List (List String))
    (dstFile : Option (List (List String))) : Option (List (List String)) :=
  let dsplit := headerSplit (dstFile.getD [])
  let ssplit := headerSplit srcFile
  let dstHeader := dsplit.1
  let dstRows := dsplit.2
  let srcHeader := ssplit.1
  let srcRows := ssplit.2
  if dstHeader ≠ [] ∧ srcHeader ≠ [] ∧ dstHeader ≠ srcHeader then none
  else
    let header := if dstHeader = [] then srcHeader else dstHeader
    let merged := dedupKeepFirst (dstRows ++ srcRows)
    let sorted :=
      match (if header = [] then none else header.findIdx? (· == "Time")) with
      | none => merged
      | some i =>
        if merged.all (fun r => (timeKey? i r).isSome) then
          List.insertionSort (fun a b => timeKey i a ≤ timeKey i b) merged
        else merged
    some (if header = [] then sorted else header :: sorted)

/-! ## Destination directory, events and the variant reconciler
(`remove_duplicate_variants` lines 331-353,
`normalize_and_cleanup_variants` lines 355-384) -/

/-- A destination file: name, parsed CSV content, whole-second mtime and
byte size. -/
structure DFile where
  name : String
  rows : List (List String)
  mtime : Int
  size : Int
deriving DecidableEq, Repr

/-- A destination directory listing (names unique in well-formed
directories; order is the scan order of the directory). -/
abbrev Dir := List DFile

/-- A source CSV under `data/csv`. -/
structure SrcFile where
  name : String
  rows : List (List String)
  mtime : Int
  size : Int
deriving DecidableEq, Repr

/-- Observable events of a pass: log warnings, variant unlinks and
renames, completed copies and merges (emitted only after the rename of
the `.part` temp file), identical-skip fingerprint updates, per-file
failures, and the final state save. -/
inductive Ev where
  | warnLowSpace
  | unlink (name : String)
  | renameF (old new : String)
  | copyDone (name : String) (bytes : Int)
  | mergeDone (name : String) (bytes : Int)
  | skipIdent (name : String)
  | copyFail (name : String)
  | stateSave
deriving DecidableEq, Repr

/-- The combined glob-plus-regex filter both reconcilers apply: the name
survives the case-sensitive `*{suffix}` glob and matches the
case-insensitive underscore-number pattern while differing from the
base name. -/
def isVariantFile (base : String) (f : DFile) : Bool :=
  strEndsWith f.name (extOf base) && isUnderscoreVariant base f.name

/-- Look up a directory entry by exact name (`Path.exists`). -/
def findFile : Dir → String → Option DFile
  | [], _ => none
  | f :: rest, n => if f.name == n then some f else findFile rest n

/-- Shallow embedding of `remove_duplicate_variants` (lines 331-353):
delete every underscore-number variant of `base`, returning the
directory and the unlink events. -/
def remove_duplicate_variants (d : Dir) (base : String) : Dir × List Ev :=
  (d.filter (fun f => !(isVariantFile base f)),
   (d.filter (isVariantFile base)).map (fun f => Ev.unlink f.name))

/-- Python `max(variants, key=mtime)`: the first element attaining the
maximal mtime (later elements replace only on strictly greater key). -/
def firstMaxByMtime : DFile → List DFile → DFile
  | best, [] => best
  | best, x :: xs => firstMaxByMtime (if best.mtime < x.mtime then x else best) xs

/-- Shallow embedding of `normalize_and_cleanup_variants`
(lines 355-384): collect the underscore-number variants; when some
exist and the canonical name is absent, rename the newest variant (by
mtime, first on tie as Python `max`) to the canonical name; otherwise do
nothing.  No entry is ever deleted here. -/
def normalize_and_cleanup_variants (d : Dir) (base : String) : Dir × List Ev :=
  match d.filter (isVariantFile base) with
  | [] => (d, [])
  | v :: vs =>
    let newest := firstMaxByMtime v vs
    if (findFile d base).isSome then (d, [])
    else
      (d.map (fun f => if f.name == newest.name then { f with name := base } else f),
       [Ev.renameF newest.name base])

/-- One sweep of the unconditional pre-pass of `scan_and_copy`
(lines 599-608) over one target directory: for each source file other
than the consolidated `readings_all.csv`, remove duplicate variants then
normalize. -/
def sweepDir : List SrcFile → Dir → Dir × List Ev
  | [], d => (d, [])
  | src :: rest, d =>
    if src.name == "readings_all.csv" then sweepDir rest d
    else
      let r := remove_duplicate_variants d src.name
      let n := normalize_and_cleanup_variants r.1 src.name
      let t := sweepDir rest n.1
      (t.1, r.2 ++ n.2 ++ t.2)

/-! ## Fingerprint state and the copy decision
(`load_state`/`save_state` keying, `files_identical` lines 230-241,
the need computation lines 624-636) -/

/-- A per-file fingerprint `{mtime, size}` (lines 653, 657, ...). -/
structure Fingerprint where
  mtime : Int
  size : Int
deriving DecidableEq, Repr

/-- Per-volume fingerprint table, keyed by source file name. -/
abbrev DevState := List (String × Fingerprint)

/-- The whole persisted state document, keyed by volume identity. -/
abbrev StateMap := List (String × DevState)

/-- Association-list lookup modelling Python `dict.get`. -/
def alookup {α : Type} : List (String × α) → String → Option α
  | [], _ => none
  | p :: rest, k => if p.1 == k then some p.2 else alookup rest k

/-- Association-list assignment modelling Python `d[k] = v`: replace the
existing entry in place (dicts keep insertion order) or append. -/
def aset {α : Type} : List (String × α) → String → α → List (String × α)
  | [], k, v => [(k, v)]
  | p :: rest, k, v => if p.1 == k then (k, v) :: rest else p :: aset rest k v

/-- Shallow embedding of `files_identical` (lines 230-241): equal sizes
and then either equal whole-second mtimes (fast path, content not read)
or equal content (sha256 comparison, modelled as row equality). -/
def files_identical (src : SrcFile) (dst : DFile) : Bool :=
  src.size == dst.size && (src.mtime == dst.mtime || src.rows == dst.rows)

/-- The `need` computation before the destination-existence check
(lines 624-632): copy when `always_copy_on_insert`, when no fingerprint
exists, or when the fingerprint is stale. -/
def needCopy (alwaysCopy : Bool) (prev : Option Fingerprint) (src : SrcFile) : Bool :=
  if alwaysCopy then true
  else
    match prev with
    | none => true
    | some p => p.mtime < src.mtime || p.size != src.size

/-! ## The per-file loop and `scan_and_copy` (lines 568-696) -/

/-- Accumulated loop state threaded through the per-file loop of
`scan_and_copy`. -/
structure ScanState where
  dest : Dir
  dev : DevState
  copied : Nat
  planned : Nat
  failed : List String
  evs : List Ev
deriving Repr

/-- Write the destination file (`atomic_copy` lines 208-215 or
`atomic_write_bytes` lines 244-251 result): replace the entry or create
it; its mtime becomes the write time `now`. -/
def putFile : Dir → String → List (List String) → Int → Int → Dir
  | [], n, rows, now, size => [⟨n, rows, now, size⟩]
  | f :: rest, n, rows, now, size =>
    if f.name == n then ⟨n, rows, now, size⟩ :: rest
    else f :: putFile rest n rows now size

/-- An `atomic_copy src dst` attempt inside the per-file try block: a
fault on the destination name raises (caught at lines 686-688, the name
is recorded as failed); otherwise the copy completes, the fingerprint is
recorded and the copied counter advances. -/
def attemptCopy (fault : String → Bool) (now : Int) (st : ScanState)
    (key : String) (src : SrcFile) : ScanState :=
  if fault key then
    { st with failed := st.failed ++ [key], evs := st.evs ++ [Ev.copyFail key] }
  else
    { st with
      dest := putFile st.dest key src.rows now src.size,
      dev := aset st.dev key ⟨src.mtime, src.size⟩,
      copied := st.copied + 1,
      evs := st.evs ++ [Ev.copyDone key src.size] }

/-- Identical-content skip: only the fingerprint is updated
(lines 651-654 and 661-663). -/
def skipIdentUpdate (st : ScanState) (key : String) (src : SrcFile) : ScanState :=
  { st with
    dev := aset st.dev key ⟨src.mtime, src.size⟩,
    evs := st.evs ++ [Ev.skipIdent key] }

/-- One iteration of the per-file loop of `scan_and_copy`
(lines 613-691), for the already-normalized `mode`.  A fault on the
destination name makes the write inside `merge_csv_files` raise (so the
merge reports failure, line 327-328) and makes `atomic_copy` raise. -/
def processFile (mode : String) (alwaysCopy dry : Bool) (now : Int)
    (fault : String → Bool) (st : ScanState) (src : SrcFile) : ScanState :=
  if src.name == "readings_all.csv" then st
  else
    let key := src.name
    let prev := alookup st.dev key
    let need0 := needCopy alwaysCopy prev src
    let need := need0 || !(findFile st.dest key).isSome
    let cleanup := remove_duplicate_variants st.dest key
    let st1 : ScanState := { st with dest := cleanup.1, evs := st.evs ++ cleanup.2 }
    if need then
      if dry then { st1 with planned := st1.planned + 1 }
      else
        match findFile st1.dest key with
        | some dstF =>
          if mode == "skip-identical" then
            if files_identical src dstF then skipIdentUpdate st1 key src
            else attemptCopy fault now st1 key src
          else if mode == "merge" then
            if files_identical src dstF then skipIdentUpdate st1 key src
            else
              match if fault key then none
                    else merge_csv_files src.rows (some dstF.rows) with
              | some out =>
                { st1 with
                  dest := putFile st1.dest key out now (csvSize out),
                  dev := aset st1.dev key ⟨src.mtime, src.size⟩,
                  copied := st1.copied + 1,
                  evs := st1.evs ++ [Ev.mergeDone key (csvSize out)] }
              | none => attemptCopy fault now st1 key src
          else attemptCopy fault now st1 key src
        | none => attemptCopy fault now st1 key src
    else st1

/-- Configuration slice read by `scan_and_copy` (lines 572-579); the
`dest_root_name`/`subfolder` path plumbing is resolved into the given
destination listing. -/
structure UsbCfg where
  minFreeMb : Int
  copyMode : String
  alwaysCopy : Bool
deriving Repr

/-- Copy-mode normalization (lines 576-578): strip, lowercase, and fall
back to the default `merge` when the result is not a recognized mode. -/
def normalizeCopyMode (s : String) : String :=
  let m := strTrimLower s
  if m = "overwrite" ∨ m = "skip-identical" ∨ m = "merge" then m else "merge"

/-- Shallow embedding of `ensure_free_space` (lines 200-205). -/
def ensure_free_space (freeBytes minFreeMb : Int) : Bool :=
  freeBytes ≥ minFreeMb * 1024 * 1024

/-- A mounted volume as `scan_and_copy` sees it: the resolved
destination directory listing, the legacy `COPIED_DATA/data/csv`
listing swept by the pre-pass (empty when absent), and the free bytes of
the destination root. -/
structure Volume where
  dest : Dir
  legacy : Dir
  freeBytes : Int
deriving Repr

/-- Return value of `scan_and_copy`: the source returns the bare int `0`
on the low-space path (line 595) and a pair everywhere else
(line 696). -/
inductive ScanRet where
  | bare (n : Int)
  | pair (n : Nat) (failed : List String)
deriving DecidableEq, Repr

/-- Shallow embedding of `scan_and_copy` (lines 568-696).  `sources` is
the sorted `data/csv` listing; `mountId` keys the state document;
`now` stamps every write of this pass; `fault` injects per-file write
failures.  Returns the return value, the volume after the pass, the
persisted state document after the pass, and the event trace. -/
def scan_and_copy (cfg : UsbCfg) (sources : List SrcFile) (vol : Volume)
    (state : StateMap) (mountId : String) (dry : Bool) (now : Int)
    (fault : String → Bool) : ScanRet × Volume × StateMap × List Ev :=
  let mode := normalizeCopyMode cfg.copyMode
  let dev := (alookup state mountId).getD []
  if !ensure_free_space vol.freeBytes cfg.minFreeMb then
    (ScanRet.bare 0, vol, state, [Ev.warnLowSpace])
  else
    let sw1 := sweepDir sources vol.dest
    let sw2 := sweepDir sources vol.legacy
    let stF := sources.foldl (processFile mode cfg.alwaysCopy dry now fault)
      { dest := sw1.1, dev := dev, copied := 0, planned := 0, failed := [],
        evs := sw1.2 ++ sw2.2 }
    let stateOut := aset state mountId stF.dev
    let ret := if dry then ScanRet.pair stF.planned []
               else ScanRet.pair stF.copied stF.failed
    (ret, { vol with dest := stF.dest, legacy := sw2.1 }, stateOut,
     stF.evs ++ [Ev.stateSave])

/-! ## Quiescence and the eject decision
(`wait_for_quiescent` lines 501-529, the simple quiesce loop and the
eject gate in `main`, lines 903-939 and 796-834). -/

/-- Sampling loop of `wait_for_quiescent`: `i` is the index of the next
busy sample, `consec` the consecutive non-busy count, `fuel` the number
of loop iterations the wall clock still admits before `timeout`.
Returns `some waited` on early success (the tuple `(False, waited)` of
line 518), `none` when the timeout is reached. -/
def wfqAux (busy : Nat → Bool) (checks : Nat) : Nat → Nat → Nat → Option Nat
  | _, _, 0 => none
  | i, consec, fuel + 1 =>
    if busy i then wfqAux busy checks (i + 1) 0 fuel
    else if consec + 1 ≥ checks then some i
    else wfqAux busy checks (i + 1) (consec + 1) fuel

/-- Shallow embedding of `wait_for_quiescent` (lines 501-529): sample up
to `iters` times inside the timeout window, then take the final
assessment sample.  Returns `(busy_final, waited)` in units of the
check interval. -/
def wait_for_quiescent (busy : Nat → Bool) (checks iters : Nat) : Bool × Nat :=
  match wfqAux busy checks 0 0 iters with
  | some waited => (false, waited)
  | none => (busy iters, iters)

/-- The simple (non-conservative) quiesce loop of `main`
(lines 909-915): re-sample every second while busy, up to
`quiesce_wait_seconds`; `i` is the seconds waited so far, `rem` the
seconds remaining. -/
def simpleQuiesceAux (busy : Nat → Bool) : Nat → Nat → Bool × Nat
  | i, 0 => (busy i, i)
  | i, rem + 1 => if busy i then simpleQuiesceAux busy (i + 1) rem else (false, i)

/-- The simple quiesce loop: first sample at index 0, final busy value
and waited seconds returned. -/
def simpleQuiesce (busy : Nat → Bool) (quiesceWait : Nat) : Bool × Nat :=
  simpleQuiesceAux busy 0 quiesceWait

/-- Outcome of the post-copy eject gate. -/
structure EjectDecision where
  ejected : Bool
  warnBusy : Bool
  warnFailed : Bool
deriving DecidableEq, Repr

/-- The post-copy decision of `main` after a pass that copied at least
one file (lines 903-939): run the configured quiesce wait, then — with
any per-file failures — write the error marker with a warning and leave
the device mounted; with no failures and `eject_after_copy` enabled,
invoke `eject_device` only when the final busy assessment is clear,
otherwise log the still-busy warning. -/
def postCopyEject (conservative : Bool) (checks iters quiesceWait : Nat)
    (ejectAfter : Bool) (busy : Nat → Bool) (failed : List String) :
    EjectDecision :=
  let busyFinal :=
    if conservative then (wait_for_quiescent busy checks iters).1
    else (simpleQuiesce busy quiesceWait).1
  if !failed.isEmpty then ⟨false, false, true⟩
  else if ejectAfter then
    if !busyFinal then ⟨true, false, false⟩ else ⟨false, true, false⟩
  else ⟨false, false, false⟩

/-! ## The state-save discipline (`save_state` lines 194-197 versus
`atomic_write_bytes` lines 244-251). -/

/-- Primitive file-system operations of a state rewrite. -/
inductive FsOp where
  | writeTmp (content : String)
  | flushTmp
  | fsyncTmp
  | renameTmpToState
deriving DecidableEq, Repr

/-- Shallow embedding of `save_state` (lines 194-197): `tmp.write_text`
then `tmp.replace(STATE_FILE)` — no flush and no fsync appear in the
source. -/
def save_state_ops (doc : String) : List FsOp :=
  [FsOp.writeTmp doc, FsOp.renameTmpToState]

/-- The op sequence of `atomic_write_bytes` (lines 244-251), which the
specification's write-temp/flush/fsync/rename discipline describes. -/
def atomic_write_ops (doc : String) : List FsOp :=
  [FsOp.writeTmp doc, FsOp.flushTmp, FsOp.fsyncTmp, FsOp.renameTmpToState]

/-- Contents visible at the state path and the temp path. -/
structure MiniFs where
  stateContent : Option String
  tmpContent : Option String
deriving DecidableEq, Repr

/-- Effect of one op on the two paths: only the rename changes what is
visible at the state path, and it installs the whole temp content. -/
def applyFsOp (fs : MiniFs) : FsOp → MiniFs
  | FsOp.writeTmp c => { fs with tmpContent := some c }
  | FsOp.flushTmp => fs
  | FsOp.fsyncTmp => fs
  | FsOp.renameTmpToState => ⟨fs.tmpContent, none⟩

def applyFsOps (fs : MiniFs) (ops : List FsOp) : MiniFs :=
  ops.foldl applyFsOp fs

/-! ## Predicates and fixtures used by the claim statements -/

/-- Events that write data-file bytes to the volume: a completed copy or
a completed merge rewrite. -/
def isDataWrite : Ev → Bool
  | Ev.copyDone _ _ => true
  | Ev.mergeDone _ _ => true
  | _ => false

/-- Events of the variant reconciler: unlinks and renames. -/
def isCleanupEv : Ev → Bool
  | Ev.unlink _ => true
  | Ev.renameF _ _ => true
  | _ => false

/-- Rename events only. -/
def isRenameEv : Ev → Bool
  | Ev.renameF _ _ => true
  | _ => false

/-- Events that justify recording a fingerprint for file `k`: a
completed copy, a completed merge, or a verified identical skip of that
file. -/
def evJustifies (k : String) : Ev → Bool
  | Ev.skipIdent n => n == k
  | Ev.copyDone n _ => n == k
  | Ev.mergeDone n _ => n == k
  | _ => false

/-- Two directory entries holding the same data (name aside). -/
def sameData (g f : DFile) : Prop :=
  g.rows = f.rows ∧ g.mtime = f.mtime ∧ g.size = f.size

/-- Every file of `dNew` carries data already present in `d`: nothing
was created or rewritten, only deleted or renamed. -/
def contentPreserved (d dNew : Dir) : Prop :=
  ∀ f ∈ dNew, ∃ g ∈ d, sameData g f

/-- Fixture: a source file with the canonical kind of name. -/
def exSrcData : SrcFile :=
  ⟨"data.csv", [["Time", "V"], ["2024-01-01T00:00:01", "1"]], 100, 10⟩

/-- Fixture: a legitimately named sibling source whose name happens to
match the underscore-variant pattern of `data.csv`. -/
def exSrcData1 : SrcFile :=
  ⟨"data_1.csv", [["Time", "V"], ["2024-01-01T00:00:02", "2"]], 100, 10⟩

/-- Fixture: merge-mode configuration with the default 50 MB floor. -/
def exCfgMerge : UsbCfg := ⟨50, "merge", false⟩

/-- Fixture: the fault-free oracle. -/
def exNoFault : String → Bool := fun _ => false

/-! ## Theorems -/

/-- C1: on a volume below the free-space floor, `scan_and_copy` logs the
low-space warning and attempts no writes, but it returns the bare
integer `0` of line 595 rather than the contract pair `(0, [])` that its
own docstring (lines 568-571) promises — callers unpacking the tuple
fail.  The claim's return-contract part is contradicted by the code at
this input. -/
theorem scan_low_space_returns_bare_int :
    (scan_and_copy ⟨50, "merge", false⟩ [exSrcData] ⟨[], [], 1000⟩ [] "usb1"
        false 200 exNoFault).1 = ScanRet.bare 0 ∧
    (scan_and_copy ⟨50, "merge", false⟩ [exSrcData] ⟨[], [], 1000⟩ [] "usb1"
        false 200 exNoFault).1 ≠ ScanRet.pair 0 [] ∧
    (scan_and_copy ⟨50, "merge", false⟩ [exSrcData] ⟨[], [], 1000⟩ [] "usb1"
        false 200 exNoFault).2.2.1 = [] ∧
    (scan_and_copy ⟨50, "merge", false⟩ [exSrcData] ⟨[], [], 1000⟩ [] "usb1"
        false 200 exNoFault).2.2.2 = [Ev.warnLowSpace] := by
  decide

/-- C4: running the pass twice with unchanged sources `data.csv` and
`data_1.csv` (a legitimate per-source name that matches the
underscore-variant pattern of its sibling) is not idempotent under
`copy_mode=merge`: the second run's unconditional variant pre-pass
deletes the previously copied `data_1.csv` from the destination and
re-copies its bytes, reporting one copied file instead of zero. -/
theorem second_run_recopies_variant_named_source :
    (scan_and_copy exCfgMerge [exSrcData, exSrcData1] ⟨[], [], 1000000000⟩ []
        "usb1" false 200 exNoFault).1 = ScanRet.pair 2 [] ∧
    (scan_and_copy exCfgMerge [exSrcData, exSrcData1]
        (scan_and_copy exCfgMerge [exSrcData, exSrcData1] ⟨[], [], 1000000000⟩
          [] "usb1" false 200 exNoFault).2.1
        (scan_and_copy exCfgMerge [exSrcData, exSrcData1] ⟨[], [], 1000000000⟩
          [] "usb1" false 200 exNoFault).2.2.1
        "usb1" false 300 exNoFault).1 = ScanRet.pair 1 [] ∧
    Ev.unlink "data_1.csv" ∈
      (scan_and_copy exCfgMerge [exSrcData, exSrcData1]
        (scan_and_copy exCfgMerge [exSrcData, exSrcData1] ⟨[], [], 1000000000⟩
          [] "usb1" false 200 exNoFault).2.1
        (scan_and_copy exCfgMerge [exSrcData, exSrcData1] ⟨[], [], 1000000000⟩
          [] "usb1" false 200 exNoFault).2.2.1
        "usb1" false 300 exNoFault).2.2.2 ∧
    ((scan_and_copy exCfgMerge [exSrcData, exSrcData1]
        (scan_and_copy exCfgMerge [exSrcData, exSrcData1] ⟨[], [], 1000000000⟩
          [] "usb1" false 200 exNoFault).2.1
        (scan_and_copy exCfgMerge [exSrcData, exSrcData1] ⟨[], [], 1000000000⟩
          [] "usb1" false 200 exNoFault).2.2.1
        "usb1" false 300 exNoFault).2.2.2.any isDataWrite) = true := by
  decide

/-- C2 counterexample: with `dry_run` true the pass still deletes the
destination variant file `data_1.csv` (the unconditional pre-pass of
lines 599-608 ignores `dry_run`) and still rewrites the state file,
which gains an empty entry for the previously unseen volume id — so a
dry run does perform writes, contrary to the claim. -/
theorem dry_run_deletes_variant_and_rewrites_state :
    Ev.unlink "data_1.csv" ∈
      (scan_and_copy exCfgMerge [exSrcData]
        ⟨[⟨"data.csv", [["Time", "V"]], 50, 4⟩,
          ⟨"data_1.csv", [["Time", "V"]], 60, 4⟩], [], 1000000000⟩
        [] "usb1" true 200 exNoFault).2.2.2 ∧
    alookup
      (scan_and_copy exCfgMerge [exSrcData]
        ⟨[⟨"data.csv", [["Time", "V"]], 50, 4⟩,
          ⟨"data_1.csv", [["Time", "V"]], 60, 4⟩], [], 1000000000⟩
        [] "usb1" true 200 exNoFault).2.2.1 "usb1" ≠
      alookup ([] : StateMap) "usb1" := by
  decide

/-- C3 counterexample: during a sync pass with canonical `data.csv`
absent and variants `data_1.csv`, `data_2.csv` present, the pre-pass of
`scan_and_copy` calls `remove_duplicate_variants` before
`normalize_and_cleanup_variants`, so both variants are deleted and none
is renamed to the canonical path — contradicting the claim that the
newest variant is renamed and no variant is deleted. -/
theorem sync_pass_deletes_orphan_variants :
    Ev.unlink "data_1.csv" ∈
      (scan_and_copy exCfgMerge [exSrcData]
        ⟨[⟨"data_1.csv", [["Time", "V"]], 10, 4⟩,
          ⟨"data_2.csv", [["Time", "V"]], 20, 4⟩], [], 1000000000⟩
        [] "usb1" false 200 exNoFault).2.2.2 ∧
    Ev.unlink "data_2.csv" ∈
      (scan_and_copy exCfgMerge [exSrcData]
        ⟨[⟨"data_1.csv", [["Time", "V"]], 10, 4⟩,
          ⟨"data_2.csv", [["Time", "V"]], 20, 4⟩], [], 1000000000⟩
        [] "usb1" false 200 exNoFault).2.2.2 ∧
    ((scan_and_copy exCfgMerge [exSrcData]
        ⟨[⟨"data_1.csv", [["Time", "V"]], 10, 4⟩,
          ⟨"data_2.csv", [["Time", "V"]], 20, 4⟩], [], 1000000000⟩
        [] "usb1" false 200 exNoFault).2.2.2.any isRenameEv) = false ∧
    findFile
      (scan_and_copy exCfgMerge [exSrcData]
        ⟨[⟨"data_1.csv", [["Time", "V"]], 10, 4⟩,
          ⟨"data_2.csv", [["Time", "V"]], 20, 4⟩], [], 1000000000⟩
        [] "usb1" false 200 exNoFault).2.1.dest "data_2.csv" = none := by
  decide

/-- C6 counterexample: under `copy_mode=skip-identical` with the
destination already content-identical to the source and no prior
fingerprint, the pass records the fingerprint (lines 651-654) although
no copy and no rename of a temp file happened at all — the trace holds
no completed copy or merge. -/
theorem fingerprint_recorded_without_copy :
    alookup
      ((alookup
          (scan_and_copy ⟨50, "skip-identical", false⟩ [⟨"a.csv", [["x"]], 5, 3⟩]
            ⟨[⟨"a.csv", [["x"]], 5, 3⟩], [], 1000000000⟩ [] "usb1" false 200
            exNoFault).2.2.1 "usb1").getD []) "a.csv" =
      some ⟨5, 3⟩ ∧
    ((scan_and_copy ⟨50, "skip-identical", false⟩ [⟨"a.csv", [["x"]], 5, 3⟩]
        ⟨[⟨"a.csv", [["x"]], 5, 3⟩], [], 1000000000⟩ [] "usb1" false 200
        exNoFault).2.2.2.any isDataWrite) = false := by
  decide

/-- C7 counterexample: with `eject_after_copy` disabled, a pass whose
busy detector reports busy on every sample ends with no eject (as the
claim says) but also with no warning logged at all — the still-busy
warning of lines 834/939 sits under the `eject_after` guard. -/
theorem busy_without_eject_after_no_warning :
    postCopyEject false 3 10 3 false (fun _ => true) [] =
      ⟨false, false, false⟩ := by
  decide

/-- C9 counterexample: the op sequence of `save_state` (lines 194-197)
is write-temp then rename; it contains neither the flush nor the fsync
that the claim (and `atomic_write_bytes`, lines 244-251) describe. -/
theorem save_state_ops_lack_fsync :
    save_state_ops "doc" ≠ atomic_write_ops "doc" ∧
    FsOp.flushTmp ∉ save_state_ops "doc" ∧
    FsOp.fsyncTmp ∉ save_state_ops "doc" ∧
    FsOp.fsyncTmp ∈ atomic_write_ops "doc" := by
  decide

/-- C9 (amended): `save_state` writes the full document to the temp file
and then renames it over the state path (with no flush/fsync step); at
every prefix of the op sequence — i.e. after a crash at any point — the
state path holds either its old content or the complete new document,
never a partial one, and the completed sequence installs the new
document. -/
theorem save_state_write_then_rename_visibility (doc : String) (fs : MiniFs)
    (n : Nat) :
    ((applyFsOps fs ((save_state_ops doc).take n)).stateContent =
        fs.stateContent ∨
      (applyFsOps fs ((save_state_ops doc).take n)).stateContent = some doc) ∧
    applyFsOps fs (save_state_ops doc) = ⟨some doc, none⟩ := by
  constructor
  · match n with
    | 0 => exact Or.inl rfl
    | 1 => exact Or.inl rfl
    | Nat.succ (Nat.succ m) =>
      refine Or.inr ?_
      simp [save_state_ops, applyFsOps, applyFsOp]
  · rfl

theorem wfqAux_all_busy (busy : Nat → Bool) (hbusy : ∀ i, busy i = true)
    (checks : Nat) : ∀ fuel i consec, wfqAux busy checks i consec fuel = none := by
  intro fuel
  induction fuel with
  | zero => intro i consec; rfl
  | succ m ih =>
    intro i consec
    simp only [wfqAux, hbusy i, if_true]
    exact ih (i + 1) 0

theorem wait_for_quiescent_all_busy (busy : Nat → Bool)
    (hbusy : ∀ i, busy i = true) (checks iters : Nat) :
    wait_for_quiescent busy checks iters = (true, iters) := by
  simp only [wait_for_quiescent, wfqAux_all_busy busy hbusy checks iters 0 0,
    hbusy iters]

theorem simpleQuiesce_all_busy (busy : Nat → Bool)
    (hbusy : ∀ i, busy i = true) (quiesceWait : Nat) :
    simpleQuiesce busy quiesceWait = (true, quiesceWait) := by
  suffices h : ∀ rem i, simpleQuiesceAux busy i rem = (true, i + rem) by
    simpa [simpleQuiesce] using h quiesceWait 0
  intro rem
  induction rem with
  | zero => intro i; simp [simpleQuiesceAux, hbusy i]
  | succ m ih =>
    intro i
    simp only [simpleQuiesceAux, hbusy i, if_true, ih (i + 1)]
    ring_nf

/-- C7 (amended): whenever the busy detector reports busy on every
sample of the quiesce window — in the conservative mode
(`wait_for_quiescent`) and in the simple mode alike — `eject_device` is
never invoked; and whenever `eject_after_copy` is enabled a warning is
logged (the still-busy warning, or the failed-files warning when the
pass had failures).  With `eject_after_copy` disabled no warning is
emitted, which is the one correction to the claim. -/
theorem busy_all_window_never_ejects (conservative : Bool)
    (checks iters quiesceWait : Nat) (ejectAfter : Bool) (busy : Nat → Bool)
    (failed : List String) (hbusy : ∀ i, busy i = true) :
    (postCopyEject conservative checks iters quiesceWait ejectAfter busy
        failed).ejected = false ∧
    (ejectAfter = true →
      ((postCopyEject conservative checks iters quiesceWait ejectAfter busy
          failed).warnBusy = true ∨
        (postCopyEject conservative checks iters quiesceWait ejectAfter busy
          failed).warnFailed = true)) := by
  have hb : (if conservative then (wait_for_quiescent busy checks iters).1
      else (simpleQuiesce busy quiesceWait).1) = true := by
    cases conservative <;>
      simp [wait_for_quiescent_all_busy busy hbusy,
        simpleQuiesce_all_busy busy hbusy]
  unfold postCopyEject
  rw [hb]
  cases hf : failed.isEmpty <;> cases he : ejectAfter <;> simp

/-- C7 witness: the amended theorem applied at a concrete all-busy
window with the conservative mode and eject enabled. -/
theorem busy_all_window_never_ejects_witness :
    (∀ i, (fun _ : Nat => true) i = true) ∧
    (postCopyEject true 3 10 5 true (fun _ => true) []).ejected = false ∧
    ((true : Bool) = true →
      ((postCopyEject true 3 10 5 true (fun _ => true) []).warnBusy = true ∨
        (postCopyEject true 3 10 5 true (fun _ => true) []).warnFailed =
          true)) :=
  ⟨fun _ => rfl,
    (busy_all_window_never_ejects true 3 10 5 true (fun _ => true) []
        (fun _ => rfl)).1,
    (busy_all_window_never_ejects true 3 10 5 true (fun _ => true) []
        (fun _ => rfl)).2⟩

/-- C10: when the configured `copy_mode`, stripped and lowercased, is
none of `overwrite`, `skip-identical`, `merge`, the whole
`scan_and_copy` pass behaves exactly as if `copy_mode` were `merge`
(lines 576-578 normalize the mode before any use): no error, copying
not disabled. -/
theorem unrecognized_copy_mode_behaves_as_merge (cfg : UsbCfg)
    (sources : List SrcFile) (vol : Volume) (state : StateMap) (id : String)
    (dry : Bool) (now : Int) (fault : String → Bool)
    (h1 : strTrimLower cfg.copyMode ≠ "overwrite")
    (h2 : strTrimLower cfg.copyMode ≠ "skip-identical")
    (h3 : strTrimLower cfg.copyMode ≠ "merge") :
    scan_and_copy cfg sources vol state id dry now fault =
      scan_and_copy ⟨cfg.minFreeMb, "merge", cfg.alwaysCopy⟩ sources vol state
        id dry now fault := by
  have hneg : ¬(strTrimLower cfg.copyMode = "overwrite" ∨
      strTrimLower cfg.copyMode = "skip-identical" ∨
      strTrimLower cfg.copyMode = "merge") := by
    rintro (h | h | h)
    exacts [h1 h, h2 h, h3 h]
  have hn : normalizeCopyMode cfg.copyMode = "merge" := by
    simp only [normalizeCopyMode, if_neg hneg]
  have hm : normalizeCopyMode "merge" = "merge" := by decide
  simp only [scan_and_copy, hn, hm]

/-- C10 witness: the unrecognized mode string `" Bogus "` makes the pass
agree with the `merge`-mode pass at a concrete input. -/
theorem unrecognized_copy_mode_behaves_as_merge_witness :
    strTrimLower " Bogus " ≠ "overwrite" ∧
    strTrimLower " Bogus " ≠ "skip-identical" ∧
    strTrimLower " Bogus " ≠ "merge" ∧
    scan_and_copy ⟨50, " Bogus ", false⟩ [exSrcData] ⟨[], [], 1000000000⟩ []
        "usb1" false 200 exNoFault =
      scan_and_copy ⟨50, "merge", false⟩ [exSrcData] ⟨[], [], 1000000000⟩ []
        "usb1" false 200 exNoFault :=
  ⟨by decide, by decide, by decide,
    unrecognized_copy_mode_behaves_as_merge ⟨50, " Bogus ", false⟩ [exSrcData]
      ⟨[], [], 1000000000⟩ [] "usb1" false 200 exNoFault (by decide) (by decide)
      (by decide)⟩

theorem variant_name_ne_base (base : String) (f : DFile)
    (h : isVariantFile base f = true) : (f.name == base) = false := by
  simp only [isVariantFile, isUnderscoreVariant, Bool.and_eq_true,
    bne_iff_ne] at h
  simpa [beq_eq_false_iff_ne] using h.2.1

theorem findFile_remove_variants (d : Dir) (base : String) :
    findFile (remove_duplicate_variants d base).1 base = findFile d base := by
  induction d with
  | nil => rfl
  | cons f rest ih =>
    by_cases hv : isVariantFile base f = true
    · have hne := variant_name_ne_base base f hv
      simp [remove_duplicate_variants, findFile, hv, hne] at ih ⊢
      exact ih
    · have hv2 : isVariantFile base f = false := by
        cases hx : isVariantFile base f
        · rfl
        · exact absurd hx hv
      by_cases hn : (f.name == base) = true
      · simp [remove_duplicate_variants, findFile, hv2, hn]
      · have hn2 : (f.name == base) = false := by
          cases hx : (f.name == base)
          · rfl
          · exact absurd hx hn
        simp [remove_duplicate_variants, findFile, hv2, hn2] at ih ⊢
        exact ih

theorem findFile_putFile_self (d : Dir) (n : String)
    (rows : List (List String)) (now size : Int) :
    findFile (putFile d n rows now size) n = some ⟨n, rows, now, size⟩ := by
  induction d with
  | nil => simp [putFile, findFile]
  | cons f rest ih =>
    by_cases hn : (f.name == n) = true
    · simp [putFile, findFile, hn]
    · have hn2 : (f.name == n) = false := by
        cases hx : (f.name == n)
        · rfl
        · exact absurd hx hn
      simp [putFile, findFile, hn2]
      exact ih

/-- C8: for a destination CSV and a source CSV whose (nonempty) header
rows differ, the merge-mode step of the pass does not fail the file:
`merge_csv_files` reports failure (returns `False`, line 286) and the
step falls back to the atomic overwrite of lines 670-674, after which
the destination holds exactly the source's content, nothing is added to
the failure list, and the copied counter advances. -/
theorem merge_header_mismatch_falls_back (ac : Bool) (now : Int)
    (fault : String → Bool) (st : ScanState) (src : SrcFile) (dstF : DFile)
    (dh sh : List String) (dt stl : List (List String))
    (hname : (src.name == "readings_all.csv") = false)
    (hfind : findFile st.dest src.name = some dstF)
    (hneed : needCopy ac (alookup st.dev src.name) src = true)
    (hident : files_identical src dstF = false)
    (hdst : dstF.rows = dh :: dt) (hsrc : src.rows = sh :: stl)
    (hdh : dh ≠ []) (hsh : sh ≠ []) (hmm : dh ≠ sh)
    (hfault : fault src.name = false) :
    merge_csv_files src.rows (some dstF.rows) = none ∧
    findFile (processFile "merge" ac false now fault st src).dest src.name =
      some ⟨src.name, src.rows, now, src.size⟩ ∧
    (processFile "merge" ac false now fault st src).failed = st.failed ∧
    (processFile "merge" ac false now fault st src).copied = st.copied + 1 := by
  have hmerge : merge_csv_files src.rows (some dstF.rows) = none := by
    rw [hsrc, hdst]
    simp only [merge_csv_files, headerSplit, Option.getD_some]
    rw [if_pos ⟨hdh, hsh, hmm⟩]
  have hfindx : findFile (remove_duplicate_variants st.dest src.name).1
      src.name = some dstF := by
    rw [findFile_remove_variants]
    exact hfind
  have hsome : (findFile st.dest src.name).isSome = true := by
    rw [hfind]
    rfl
  have hms : (("merge" : String) == "skip-identical") = false := by decide
  have hmg : (("merge" : String) == "merge") = true := by decide
  refine ⟨hmerge, ?_⟩
  simp only [processFile, hname, Bool.false_eq_true, if_false, hsome,
    Bool.not_true, Bool.or_false, hneed, if_true, hfindx, hident, hms, hmg,
    hfault, hmerge, attemptCopy, Bool.false_eq_true, if_false]
  simp [findFile_putFile_self]

/-- C8 witness: destination header `[Time, Y]` against source header
`[Time, X]` at a concrete step — the merge reports failure and the
destination becomes an exact copy of the source. -/
theorem merge_header_mismatch_falls_back_witness :
    findFile [⟨"m.csv", [["Time", "Y"], ["1", "2"]], 5, 7⟩] "m.csv" =
      some ⟨"m.csv", [["Time", "Y"], ["1", "2"]], 5, 7⟩ ∧
    files_identical ⟨"m.csv", [["Time", "X"], ["3", "4"]], 9, 7⟩
      ⟨"m.csv", [["Time", "Y"], ["1", "2"]], 5, 7⟩ = false ∧
    (["Time", "Y"] : List String) ≠ ["Time", "X"] ∧
    merge_csv_files [["Time", "X"], ["3", "4"]]
      (some [["Time", "Y"], ["1", "2"]]) = none ∧
    findFile
      (processFile "merge" false false 50 exNoFault
        ⟨[⟨"m.csv", [["Time", "Y"], ["1", "2"]], 5, 7⟩], [], 0, 0, [], []⟩
        ⟨"m.csv", [["Time", "X"], ["3", "4"]], 9, 7⟩).dest "m.csv" =
      some ⟨"m.csv", [["Time", "X"], ["3", "4"]], 50, 7⟩ ∧
    (processFile "merge" false false 50 exNoFault
        ⟨[⟨"m.csv", [["Time", "Y"], ["1", "2"]], 5, 7⟩], [], 0, 0, [], []⟩
        ⟨"m.csv", [["Time", "X"], ["3", "4"]], 9, 7⟩).failed = [] ∧
    (processFile "merge" false false 50 exNoFault
        ⟨[⟨"m.csv", [["Time", "Y"], ["1", "2"]], 5, 7⟩], [], 0, 0, [], []⟩
        ⟨"m.csv", [["Time", "X"], ["3", "4"]], 9, 7⟩).copied = 0 + 1 :=
  ⟨by decide, by decide, by decide,
    (merge_header_mismatch_falls_back false 50 exNoFault
      ⟨[⟨"m.csv", [["Time", "Y"], ["1", "2"]], 5, 7⟩], [], 0, 0, [], []⟩
      ⟨"m.csv", [["Time", "X"], ["3", "4"]], 9, 7⟩
      ⟨"m.csv", [["Time", "Y"], ["1", "2"]], 5, 7⟩
      ["Time", "Y"] ["Time", "X"] [["1", "2"]] [["3", "4"]]
      (by decide) (by decide) (by decide) (by decide) rfl rfl
      (by decide) (by decide) (by decide) rfl).1,
    ((merge_header_mismatch_falls_back false 50 exNoFault
      ⟨[⟨"m.csv", [["Time", "Y"], ["1", "2"]], 5, 7⟩], [], 0, 0, [], []⟩
      ⟨"m.csv", [["Time", "X"], ["3", "4"]], 9, 7⟩
      ⟨"m.csv", [["Time", "Y"], ["1", "2"]], 5, 7⟩
      ["Time", "Y"] ["Time", "X"] [["1", "2"]] [["3", "4"]]
      (by decide) (by decide) (by decide) (by decide) rfl rfl
      (by decide) (by decide) (by decide) rfl).2).1,
    (((merge_header_mismatch_falls_back false 50 exNoFault
      ⟨[⟨"m.csv", [["Time", "Y"], ["1", "2"]], 5, 7⟩], [], 0, 0, [], []⟩
      ⟨"m.csv", [["Time", "X"], ["3", "4"]], 9, 7⟩
      ⟨"m.csv", [["Time", "Y"], ["1", "2"]], 5, 7⟩
      ["Time", "Y"] ["Time", "X"] [["1", "2"]] [["3", "4"]]
      (by decide) (by decide) (by decide) (by decide) rfl rfl
      (by decide) (by decide) (by decide) rfl).2).2).1,
    (((merge_header_mismatch_falls_back false 50 exNoFault
      ⟨[⟨"m.csv", [["Time", "Y"], ["1", "2"]], 5, 7⟩], [], 0, 0, [], []⟩
      ⟨"m.csv", [["Time", "X"], ["3", "4"]], 9, 7⟩
      ⟨"m.csv", [["Time", "Y"], ["1", "2"]], 5, 7⟩
      ["Time", "Y"] ["Time", "X"] [["1", "2"]] [["3", "4"]]
      (by decide) (by decide) (by decide) (by decide) rfl rfl
      (by decide) (by decide) (by decide) rfl).2).2).2⟩

theorem firstMaxByMtime_mem (v : DFile) (vs : List DFile) :
    firstMaxByMtime v vs ∈ v :: vs := by
  induction vs generalizing v with
  | nil => exact List.mem_singleton.mpr rfl
  | cons x xs ih =>
    simp only [firstMaxByMtime]
    by_cases h : v.mtime < x.mtime
    · rw [if_pos h]
      exact List.mem_cons_of_mem v (ih x)
    · rw [if_neg h]
      rcases List.mem_cons.mp (ih v) with h1 | h2
      · rw [h1]
        exact List.mem_cons_self v (x :: xs)
      · exact List.mem_cons_of_mem v (List.mem_cons_of_mem x h2)

theorem firstMaxByMtime_max (v : DFile) (vs : List DFile) :
    ∀ u ∈ v :: vs, u.mtime ≤ (firstMaxByMtime v vs).mtime := by
  induction vs generalizing v with
  | nil =>
    intro u hu
    rw [List.mem_singleton.mp hu]
    exact le_rfl
  | cons x xs ih =>
    intro u hu
    simp only [firstMaxByMtime]
    have hvb : v.mtime ≤ (if v.mtime < x.mtime then x else v).mtime := by
      by_cases h : v.mtime < x.mtime
      · rw [if_pos h]; exact le_of_lt h
      · rw [if_neg h]
    have hxb : x.mtime ≤ (if v.mtime < x.mtime then x else v).mtime := by
      by_cases h : v.mtime < x.mtime
      · rw [if_pos h]
      · rw [if_neg h]; exact le_of_not_lt h
    have hbase := ih (if v.mtime < x.mtime then x else v)
    rcases List.mem_cons.mp hu with hu1 | hu2
    · rw [hu1]
      exact le_trans hvb (hbase _ (List.mem_cons_self _ xs))
    · rcases List.mem_cons.mp hu2 with hx1 | hx2
      · rw [hx1]
        exact le_trans hxb (hbase _ (List.mem_cons_self _ xs))
      · exact hbase u (List.mem_cons_of_mem _ hx2)

/-- C3 (amended): `normalize_and_cleanup_variants` taken by itself does
what the claim says — when the canonical path is absent and some
underscore-numbered variants exist, it renames a variant of maximal
modification time (the first such, as Python `max`) to the canonical
name, leaves every other file in place, and deletes nothing.  (Inside a
sync pass, however, the deleting pre-pass runs first — see the
counterexample.) -/
theorem normalize_variants_renames_newest (d : Dir) (base : String)
    (v : DFile) (vs : List DFile)
    (habs : findFile d base = none)
    (hvar : d.filter (isVariantFile base) = v :: vs) :
    ∃ w, w ∈ d.filter (isVariantFile base) ∧
      (∀ u ∈ d.filter (isVariantFile base), u.mtime ≤ w.mtime) ∧
      normalize_and_cleanup_variants d base =
        (d.map (fun f =>
          if f.name == w.name then { f with name := base } else f),
         [Ev.renameF w.name base]) ∧
      (normalize_and_cleanup_variants d base).1.length = d.length ∧
      (∀ f ∈ d, (f.name == w.name) = false →
        f ∈ (normalize_and_cleanup_variants d base).1) := by
  have heq : normalize_and_cleanup_variants d base =
      (d.map (fun f =>
        if f.name == (firstMaxByMtime v vs).name then { f with name := base }
        else f),
       [Ev.renameF (firstMaxByMtime v vs).name base]) := by
    simp only [normalize_and_cleanup_variants, hvar, habs, Option.isSome_none,
      Bool.false_eq_true, if_false]
  refine ⟨firstMaxByMtime v vs, ?_, ?_, heq, ?_, ?_⟩
  · rw [hvar]
    exact firstMaxByMtime_mem v vs
  · rw [hvar]
    exact firstMaxByMtime_max v vs
  · rw [heq]
    exact List.length_map d _
  · intro f hf hne
    rw [heq]
    refine List.mem_map.mpr ⟨f, hf, ?_⟩
    rw [hne]
    rfl

/-- C3 witness: the amended theorem at a directory holding only the two
variants `data_1.csv` and `data_2.csv` of the absent `data.csv`: the
newer `data_2.csv` is the renamed one. -/
theorem normalize_variants_renames_newest_witness :
    findFile [⟨"data_1.csv", [["r"]], 10, 4⟩, ⟨"data_2.csv", [["r"]], 20, 4⟩]
        "data.csv" = none ∧
    ([⟨"data_1.csv", [["r"]], 10, 4⟩,
        ⟨"data_2.csv", [["r"]], 20, 4⟩] : Dir).filter
        (isVariantFile "data.csv") =
      ⟨"data_1.csv", [["r"]], 10, 4⟩ :: [⟨"data_2.csv", [["r"]], 20, 4⟩] ∧
    (∃ w, w ∈ ([⟨"data_1.csv", [["r"]], 10, 4⟩,
          ⟨"data_2.csv", [["r"]], 20, 4⟩] : Dir).filter
          (isVariantFile "data.csv") ∧
      (∀ u ∈ ([⟨"data_1.csv", [["r"]], 10, 4⟩,
            ⟨"data_2.csv", [["r"]], 20, 4⟩] : Dir).filter
            (isVariantFile "data.csv"), u.mtime ≤ w.mtime) ∧
      normalize_and_cleanup_variants
          [⟨"data_1.csv", [["r"]], 10, 4⟩, ⟨"data_2.csv", [["r"]], 20, 4⟩]
          "data.csv" =
        (([⟨"data_1.csv", [["r"]], 10, 4⟩,
            ⟨"data_2.csv", [["r"]], 20, 4⟩] : Dir).map (fun f =>
          if f.name == w.name then { f with name := "data.csv" } else f),
         [Ev.renameF w.name "data.csv"]) ∧
      (normalize_and_cleanup_variants
          [⟨"data_1.csv", [["r"]], 10, 4⟩, ⟨"data_2.csv", [["r"]], 20, 4⟩]
          "data.csv").1.length =
        ([⟨"data_1.csv", [["r"]], 10, 4⟩,
          ⟨"data_2.csv", [["r"]], 20, 4⟩] : Dir).length ∧
      (∀ f ∈ ([⟨"data_1.csv", [["r"]], 10, 4⟩,
            ⟨"data_2.csv", [["r"]], 20, 4⟩] : Dir), (f.name == w.name) = false →
        f ∈ (normalize_and_cleanup_variants
          [⟨"data_1.csv", [["r"]], 10, 4⟩, ⟨"data_2.csv", [["r"]], 20, 4⟩]
          "data.csv").1)) :=
  ⟨by decide, by decide,
    normalize_variants_renames_newest
      [⟨"data_1.csv", [["r"]], 10, 4⟩, ⟨"data_2.csv", [["r"]], 20, 4⟩]
      "data.csv" ⟨"data_1.csv", [["r"]], 10, 4⟩
      [⟨"data_2.csv", [["r"]], 20, 4⟩] (by decide) (by decide)⟩

theorem dedup_foldl_mem (l : List (List String)) :
    ∀ (acc : List (List String)) (x : List String),
      (x ∈ l.foldl (fun a r => if r ∈ a then a else a ++ [r]) acc) ↔
        x ∈ acc ∨ x ∈ l := by
  induction l with
  | nil =>
    intro acc x
    simp
  | cons r t ih =>
    intro acc x
    rw [List.foldl_cons, ih]
    by_cases hr : r ∈ acc
    · rw [if_pos hr]
      constructor
      · rintro (hx | hx)
        · exact Or.inl hx
        · exact Or.inr (List.mem_cons_of_mem r hx)
      · rintro (hx | hx)
        · exact Or.inl hx
        · rcases List.mem_cons.mp hx with h1 | h2
          · rw [h1]
            exact Or.inl hr
          · exact Or.inr h2
    · rw [if_neg hr]
      simp [List.mem_append, List.mem_cons, or_assoc]

theorem mem_dedupKeepFirst (l : List (List String)) (x : List String) :
    x ∈ dedupKeepFirst l ↔ x ∈ l := by
  rw [dedupKeepFirst, dedup_foldl_mem]
  simp

theorem dedup_foldl_nodup (l : List (List String)) :
    ∀ acc : List (List String), acc.Nodup →
      (l.foldl (fun a r => if r ∈ a then a else a ++ [r]) acc).Nodup := by
  induction l with
  | nil =>
    intro acc hacc
    exact hacc
  | cons r t ih =>
    intro acc hacc
    rw [List.foldl_cons]
    by_cases hr : r ∈ acc
    · rw [if_pos hr]
      exact ih acc hacc
    · rw [if_neg hr]
      refine ih _ ?_
      simp [List.nodup_append, hacc, hr]

theorem nodup_dedupKeepFirst (l : List (List String)) :
    (dedupKeepFirst l).Nodup :=
  dedup_foldl_nodup l [] List.nodup_nil

/-- C5: for a destination CSV and a source CSV with the same nonempty
header, merge-mode rewrites the destination to the header followed by
rows that are exactly the union of destination rows and source rows —
each row exactly once (deduplicated by exact row equality) — and, when
all the `Time` cells (the column found in the header) parse, sorted by
that column with Python's stable sort. -/
theorem merge_mode_rows_union_sorted (h : List String)
    (dRows sRows : List (List String)) (i : Nat)
    (hne : h ≠ [])
    (hidx : h.findIdx? (· == "Time") = some i)
    (hparse : ∀ r ∈ dRows ++ sRows, (timeKey? i r).isSome = true) :
    ∃ out, merge_csv_files (h :: sRows) (some (h :: dRows)) = some (h :: out) ∧
      (∀ r, r ∈ out ↔ r ∈ dRows ++ sRows) ∧
      out.Nodup ∧
      out.Pairwise (fun a b => timeKey i a ≤ timeKey i b) := by
  have hall : (dedupKeepFirst (dRows ++ sRows)).all
      (fun r => (timeKey? i r).isSome) = true := by
    rw [List.all_eq_true]
    intro r hr
    exact hparse r ((mem_dedupKeepFirst _ r).mp hr)
  have heq : merge_csv_files (h :: sRows) (some (h :: dRows)) =
      some (h :: List.insertionSort (fun a b => timeKey i a ≤ timeKey i b)
        (dedupKeepFirst (dRows ++ sRows))) := by
    simp only [merge_csv_files, headerSplit, Option.getD_some]
    rw [if_neg (fun hc => hc.2.2 rfl), ite_self, if_neg hne, hidx, if_neg hne]
    dsimp only
    rw [hall]
    simp
  refine ⟨List.insertionSort (fun a b => timeKey i a ≤ timeKey i b)
    (dedupKeepFirst (dRows ++ sRows)), heq, ?_, ?_, ?_⟩
  · intro r
    rw [List.mem_insertionSort, mem_dedupKeepFirst]
  · exact (List.perm_insertionSort _ _).nodup_iff.mpr
      (nodup_dedupKeepFirst _)
  · haveI : IsTotal (List String) (fun a b => timeKey i a ≤ timeKey i b) :=
      ⟨fun a b => Nat.le_total _ _⟩
    haveI : IsTrans (List String) (fun a b => timeKey i a ≤ timeKey i b) :=
      ⟨fun _ _ _ hab hbc => Nat.le_trans hab hbc⟩
    exact List.sorted_insertionSort _ _

/-- C5 witness: destination rows `A, B` merged with source rows `B, C`
(same header, parseable times) yield exactly `A, B, C`, no duplicates,
in `Time` order. -/
theorem merge_mode_rows_union_sorted_witness :
    (["Time", "V"] : List String) ≠ [] ∧
    (["Time", "V"] : List String).findIdx? (· == "Time") = some 0 ∧
    (∀ r ∈ ([["2024-01-01T00:00:01", "a"], ["2024-01-01T00:00:02", "b"]] ++
        [["2024-01-01T00:00:02", "b"], ["2024-01-01T00:00:03", "c"]] :
        List (List String)), (timeKey? 0 r).isSome = true) ∧
    (∃ out, merge_csv_files
        [["Time", "V"], ["2024-01-01T00:00:02", "b"],
          ["2024-01-01T00:00:03", "c"]]
        (some [["Time", "V"], ["2024-01-01T00:00:01", "a"],
          ["2024-01-01T00:00:02", "b"]]) = some (["Time", "V"] :: out) ∧
      (∀ r, r ∈ out ↔ r ∈
        ([["2024-01-01T00:00:01", "a"], ["2024-01-01T00:00:02", "b"]] ++
          [["2024-01-01T00:00:02", "b"], ["2024-01-01T00:00:03", "c"]] :
          List (List String))) ∧
      out.Nodup ∧
      out.Pairwise (fun a b => timeKey 0 a ≤ timeKey 0 b)) ∧
    merge_csv_files
        [["Time", "V"], ["2024-01-01T00:00:02", "b"],
          ["2024-01-01T00:00:03", "c"]]
        (some [["Time", "V"], ["2024-01-01T00:00:01", "a"],
          ["2024-01-01T00:00:02", "b"]]) =
      some [["Time", "V"], ["2024-01-01T00:00:01", "a"],
        ["2024-01-01T00:00:02", "b"], ["2024-01-01T00:00:03", "c"]] :=
  ⟨by decide, by decide, by decide,
    merge_mode_rows_union_sorted ["Time", "V"]
      [["2024-01-01T00:00:01", "a"], ["2024-01-01T00:00:02", "b"]]
      [["2024-01-01T00:00:02", "b"], ["2024-01-01T00:00:03", "c"]] 0
      (by decide) (by decide) (by decide),
    by decide⟩

theorem isCleanupEv_not_dataWrite (e : Ev) (h : isCleanupEv e = true) :
    isDataWrite e = false := by
  cases e <;> simp_all [isCleanupEv, isDataWrite]

theorem remove_variants_evs_cleanup (d : Dir) (base : String) :
    ∀ e ∈ (remove_duplicate_variants d base).2, isCleanupEv e = true := by
  intro e he
  rcases List.mem_map.mp he with ⟨f, _, hf⟩
  rw [← hf]
  rfl

theorem normalize_evs_cleanup (d : Dir) (base : String) :
    ∀ e ∈ (normalize_and_cleanup_variants d base).2, isCleanupEv e = true := by
  intro e he
  unfold normalize_and_cleanup_variants at he
  rcases hv : d.filter (isVariantFile base) with _ | ⟨v, vs⟩ <;> rw [hv] at he <;>
    dsimp only at he
  · simp at he
  · by_cases hc : (findFile d base).isSome = true
    · rw [if_pos hc] at he
      simp at he
    · rw [if_neg hc] at he
      rw [List.mem_singleton.mp he]
      rfl

theorem contentPreserved_refl (d : Dir) : contentPreserved d d :=
  fun f hf => ⟨f, hf, rfl, rfl, rfl⟩

theorem contentPreserved_trans (a b c : Dir) (hab : contentPreserved a b)
    (hbc : contentPreserved b c) : contentPreserved a c := by
  intro f hf
  rcases hbc f hf with ⟨g, hg, hgf⟩
  rcases hab g hg with ⟨u, hu, hug⟩
  exact ⟨u, hu, hug.1.trans hgf.1, hug.2.1.trans hgf.2.1, hug.2.2.trans hgf.2.2⟩

theorem contentPreserved_remove (d : Dir) (base : String) :
    contentPreserved d (remove_duplicate_variants d base).1 := by
  intro f hf
  exact ⟨f, List.mem_of_mem_filter hf, rfl, rfl, rfl⟩

theorem contentPreserved_normalize (d : Dir) (base : String) :
    contentPreserved d (normalize_and_cleanup_variants d base).1 := by
  unfold normalize_and_cleanup_variants
  rcases hv : d.filter (isVariantFile base) with _ | ⟨v, vs⟩ <;> dsimp only
  · exact contentPreserved_refl d
  · by_cases hc : (findFile d base).isSome = true
    · rw [if_pos hc]
      exact contentPreserved_refl d
    · rw [if_neg hc]
      intro f hf
      rcases List.mem_map.mp hf with ⟨g, hg, hgf⟩
      refine ⟨g, hg, ?_⟩
      by_cases hn : (g.name == (firstMaxByMtime v vs).name) = true
      · rw [if_pos hn] at hgf
        rw [← hgf]
        exact ⟨rfl, rfl, rfl⟩
      · rw [if_neg hn] at hgf
        rw [← hgf]
        exact ⟨rfl, rfl, rfl⟩

theorem sweepDir_cleanup (sources : List SrcFile) :
    ∀ d : Dir, (∀ e ∈ (sweepDir sources d).2, isCleanupEv e = true) ∧
      contentPreserved d (sweepDir sources d).1 := by
  induction sources with
  | nil =>
    intro d
    exact ⟨fun e he => absurd he (List.not_mem_nil e), contentPreserved_refl d⟩
  | cons src rest ih =>
    intro d
    by_cases h0 : (src.name == "readings_all.csv") = true
    · simpa [sweepDir, h0] using ih d
    · have h0f : (src.name == "readings_all.csv") = false := by
        cases hx : (src.name == "readings_all.csv")
        · rfl
        · exact absurd hx h0
      simp only [sweepDir, h0f, Bool.false_eq_true, if_false]
      constructor
      · intro e he
        rcases List.mem_append.mp he with he1 | he2
        · rcases List.mem_append.mp he1 with he3 | he4
          · exact remove_variants_evs_cleanup d src.name e he3
          · exact normalize_evs_cleanup _ src.name e he4
        · exact (ih _).1 e he2
      · refine contentPreserved_trans _ _ _ ?_ (ih _).2
        exact contentPreserved_trans _ _ _ (contentPreserved_remove d src.name)
          (contentPreserved_normalize _ src.name)

theorem alookup_aset_self {α : Type} (s : List (String × α)) (k : String)
    (v : α) : alookup (aset s k v) k = some v := by
  induction s with
  | nil => simp [aset, alookup]
  | cons p rest ih =>
    by_cases hp : (p.1 == k) = true
    · simp [aset, alookup, hp]
    · have hp2 : (p.1 == k) = false := by
        cases hx : (p.1 == k)
        · rfl
        · exact absurd hx hp
      simp [aset, alookup, hp2]
      exact ih

theorem alookup_aset_ne {α : Type} (s : List (String × α)) (k j : String)
    (v : α) (hne : j ≠ k) :
    alookup (aset s k v) j = alookup s j := by
  have hkj : (k == j) = false := by
    simp [beq_eq_false_iff_ne]
    exact fun hc => hne hc.symm
  induction s with
  | nil => simp [aset, alookup, hkj]
  | cons p rest ih =>
    by_cases hp : (p.1 == k) = true
    · have hpk : p.1 = k := by simpa [beq_iff_eq] using hp
      have hpj : (p.1 == j) = false := by
        rw [hpk]
        exact hkj
      simp [aset, alookup, hp, hpj, hkj]
    · have hp2 : (p.1 == k) = false := by
        cases hx : (p.1 == k)
        · rfl
        · exact absurd hx hp
      by_cases hj : (p.1 == j) = true
      · simp [aset, alookup, hp2, hj]
      · have hj2 : (p.1 == j) = false := by
          cases hx : (p.1 == j)
          · rfl
          · exact absurd hx hj
        simp [aset, alookup, hp2, hj2]
        exact ih

theorem processFile_dry (mode : String) (ac : Bool) (now : Int)
    (fault : String → Bool) (st : ScanState) (src : SrcFile) :
    (processFile mode ac true now fault st src).dev = st.dev ∧
    (∃ evs2, (processFile mode ac true now fault st src).evs = st.evs ++ evs2 ∧
      ∀ e ∈ evs2, isCleanupEv e = true) ∧
    contentPreserved st.dest (processFile mode ac true now fault st src).dest := by
  have hdev : (processFile mode ac true now fault st src).dev = st.dev := by
    unfold processFile
    repeat' split
    all_goals first | rfl | (split <;> rfl) | simp_all
    all_goals first | rfl | (split <;> rfl)
  by_cases h0 : (src.name == "readings_all.csv") = true
  · have hid : processFile mode ac true now fault st src = st := by
      unfold processFile
      rw [if_pos h0]
    refine ⟨hdev, ⟨[], by rw [hid, List.append_nil], ?_⟩, ?_⟩
    · intro e he
      exact absurd he (List.not_mem_nil e)
    · rw [hid]
      exact contentPreserved_refl st.dest
  · have hevs : (processFile mode ac true now fault st src).evs =
        st.evs ++ (remove_duplicate_variants st.dest src.name).2 := by
      unfold processFile
      rw [if_neg h0]
      repeat' split
      all_goals first | rfl | (split <;> rfl) | simp_all
      all_goals first | rfl | (split <;> rfl)
    have hdest : (processFile mode ac true now fault st src).dest =
        (remove_duplicate_variants st.dest src.name).1 := by
      unfold processFile
      rw [if_neg h0]
      repeat' split
      all_goals first | rfl | (split <;> rfl) | simp_all
      all_goals first | rfl | (split <;> rfl)
    refine ⟨hdev, ⟨_, hevs, remove_variants_evs_cleanup _ _⟩, ?_⟩
    rw [hdest]
    exact contentPreserved_remove _ _

theorem processFile_evs_mono (mode : String) (ac dry : Bool) (now : Int)
    (fault : String → Bool) (st : ScanState) (src : SrcFile) :
    ∀ e ∈ st.evs, e ∈ (processFile mode ac dry now fault st src).evs := by
  intro e he
  unfold processFile attemptCopy skipIdentUpdate
  dsimp only
  repeat' split
  all_goals simp [he]

theorem processFile_dev_cases (mode : String) (ac dry : Bool) (now : Int)
    (fault : String → Bool) (st : ScanState) (src : SrcFile) :
    (processFile mode ac dry now fault st src).dev = st.dev ∨
    ((processFile mode ac dry now fault st src).dev =
        aset st.dev src.name ⟨src.mtime, src.size⟩ ∧
      ((processFile mode ac dry now fault st src).evs.any
        (evJustifies src.name)) = true) := by
  unfold processFile attemptCopy skipIdentUpdate
  dsimp only
  repeat' split
  all_goals first
    | exact Or.inl rfl
    | exact Or.inr ⟨rfl, by simp [evJustifies]⟩

theorem loop_dry (mode : String) (ac : Bool) (now : Int)
    (fault : String → Bool) :
    ∀ (sources : List SrcFile) (st : ScanState),
      (sources.foldl (processFile mode ac true now fault) st).dev = st.dev ∧
      (∃ evs2, (sources.foldl (processFile mode ac true now fault) st).evs =
          st.evs ++ evs2 ∧ ∀ e ∈ evs2, isCleanupEv e = true) ∧
      contentPreserved st.dest
        (sources.foldl (processFile mode ac true now fault) st).dest := by
  intro sources
  induction sources with
  | nil =>
    intro st
    exact ⟨rfl, ⟨[], (List.append_nil _).symm,
      fun e he => absurd he (List.not_mem_nil e)⟩, contentPreserved_refl _⟩
  | cons src rest ih =>
    intro st
    rw [List.foldl_cons]
    obtain ⟨hdev1, ⟨e1, he1, hc1⟩, hp1⟩ := processFile_dry mode ac now fault st src
    obtain ⟨hdev2, ⟨e2, he2, hc2⟩, hp2⟩ :=
      ih (processFile mode ac true now fault st src)
    refine ⟨hdev2.trans hdev1, ⟨e1 ++ e2, ?_, ?_⟩,
      contentPreserved_trans _ _ _ hp1 hp2⟩
    · rw [he2, he1, List.append_assoc]
    · intro e he
      rcases List.mem_append.mp he with h | h
      · exact hc1 e h
      · exact hc2 e h

theorem loop_fpJust (mode : String) (ac dry : Bool) (now : Int)
    (fault : String → Bool) (dev0 : DevState) :
    ∀ (sources : List SrcFile) (st : ScanState),
      (∀ k fp, alookup st.dev k = some fp →
        alookup dev0 k = some fp ∨ st.evs.any (evJustifies k) = true) →
      ∀ k fp,
        alookup (sources.foldl (processFile mode ac dry now fault) st).dev k =
          some fp →
        alookup dev0 k = some fp ∨
        ((sources.foldl (processFile mode ac dry now fault) st).evs.any
          (evJustifies k)) = true := by
  intro sources
  induction sources with
  | nil =>
    intro st hinv
    exact hinv
  | cons src rest ih =>
    intro st hinv
    rw [List.foldl_cons]
    apply ih
    intro k fp hk
    have hmono : st.evs.any (evJustifies k) = true →
        (processFile mode ac dry now fault st src).evs.any (evJustifies k) =
          true := by
      intro hx
      rcases List.any_eq_true.mp hx with ⟨e, he, hpe⟩
      exact List.any_eq_true.mpr
        ⟨e, processFile_evs_mono mode ac dry now fault st src e he, hpe⟩
    rcases processFile_dev_cases mode ac dry now fault st src with
      hcase | ⟨hset, hev⟩
    · rw [hcase] at hk
      rcases hinv k fp hk with hx | hx
      · exact Or.inl hx
      · exact Or.inr (hmono hx)
    · rw [hset] at hk
      by_cases hkk : k = src.name
      · subst hkk
        exact Or.inr hev
      · rw [alookup_aset_ne st.dev src.name k ⟨src.mtime, src.size⟩
          (fun hc => hkk hc)] at hk
        rcases hinv k fp hk with hx | hx
        · exact Or.inl hx
        · exact Or.inr (hmono hx)

/-- C2 (amended): a dry-run pass on a volume that passes the free-space
check writes no data-file content — the trace holds no completed copy
or merge, the returned value is the planned count with an empty failure
list, every destination file afterwards carries data some destination
file already carried, and the persisted fingerprints are unchanged
(the state document is only re-saved, gaining at most an empty entry
for a previously unseen volume id).  The deletions/renames of the
variant pre-pass and the state rewrite do still happen — see the
counterexample. -/
theorem dry_run_no_data_writes (cfg : UsbCfg) (sources : List SrcFile)
    (vol : Volume) (state : StateMap) (id : String) (now : Int)
    (fault : String → Bool)
    (hfs : ensure_free_space vol.freeBytes cfg.minFreeMb = true) :
    (∃ p, (scan_and_copy cfg sources vol state id true now fault).1 =
      ScanRet.pair p []) ∧
    (∀ e ∈ (scan_and_copy cfg sources vol state id true now fault).2.2.2,
      isDataWrite e = false) ∧
    contentPreserved vol.dest
      (scan_and_copy cfg sources vol state id true now fault).2.1.dest ∧
    (∀ j, j ≠ id →
      alookup (scan_and_copy cfg sources vol state id true now fault).2.2.1 j =
        alookup state j) ∧
    alookup (scan_and_copy cfg sources vol state id true now fault).2.2.1 id =
      some ((alookup state id).getD []) := by
  have hcond : (!ensure_free_space vol.freeBytes cfg.minFreeMb) = false := by
    rw [hfs]
    rfl
  obtain ⟨hdev, ⟨evs2, hevs, hclean⟩, hpres⟩ :=
    loop_dry (normalizeCopyMode cfg.copyMode) cfg.alwaysCopy now fault sources
      { dest := (sweepDir sources vol.dest).1,
        dev := (alookup state id).getD [], copied := 0, planned := 0,
        failed := [],
        evs := (sweepDir sources vol.dest).2 ++ (sweepDir sources vol.legacy).2 }
  simp only [scan_and_copy, hcond, Bool.false_eq_true, if_false, if_true]
  refine ⟨⟨_, rfl⟩, ?_, ?_, ?_, ?_⟩
  · intro e he
    rcases List.mem_append.mp he with he1 | he2
    · rw [hevs] at he1
      rcases List.mem_append.mp he1 with he3 | he4
      · rcases List.mem_append.mp he3 with he5 | he6
        · exact isCleanupEv_not_dataWrite e ((sweepDir_cleanup sources vol.dest).1 e he5)
        · exact isCleanupEv_not_dataWrite e ((sweepDir_cleanup sources vol.legacy).1 e he6)
      · exact isCleanupEv_not_dataWrite e (hclean e he4)
    · rw [List.mem_singleton.mp he2]
      rfl
  · exact contentPreserved_trans _ _ _ (sweepDir_cleanup sources vol.dest).2 hpres
  · intro j hj
    exact alookup_aset_ne state id j _ hj
  · rw [alookup_aset_self, hdev]

/-- C2 witness: the amended dry-run theorem applied at a concrete volume
with enough free space. -/
theorem dry_run_no_data_writes_witness :
    ensure_free_space (1000000000 : Int) 50 = true ∧
    (∃ p, (scan_and_copy exCfgMerge [exSrcData] ⟨[], [], 1000000000⟩ [] "usb1"
      true 200 exNoFault).1 = ScanRet.pair p []) ∧
    (∀ e ∈ (scan_and_copy exCfgMerge [exSrcData] ⟨[], [], 1000000000⟩ [] "usb1"
      true 200 exNoFault).2.2.2, isDataWrite e = false) ∧
    contentPreserved ([] : Dir)
      (scan_and_copy exCfgMerge [exSrcData] ⟨[], [], 1000000000⟩ [] "usb1"
        true 200 exNoFault).2.1.dest ∧
    (∀ j, j ≠ "usb1" →
      alookup (scan_and_copy exCfgMerge [exSrcData] ⟨[], [], 1000000000⟩ []
        "usb1" true 200 exNoFault).2.2.1 j = alookup ([] : StateMap) j) ∧
    alookup (scan_and_copy exCfgMerge [exSrcData] ⟨[], [], 1000000000⟩ []
        "usb1" true 200 exNoFault).2.2.1 "usb1" =
      some ((alookup ([] : StateMap) "usb1").getD []) :=
  ⟨by decide,
    dry_run_no_data_writes exCfgMerge [exSrcData] ⟨[], [], 1000000000⟩ []
      "usb1" 200 exNoFault (by decide)⟩

/-- C6 (amended): any fingerprint present in a volume's table after a
pass was either already present before the pass or is justified by an
event of this pass: a completed copy (rename step done), a completed
merge rewrite, or a verified identical-content skip.  In particular no
fingerprint is ever recorded for a file whose copy attempt failed.  The
identical-skip case — record updated although no copy happened — is the
one correction to the claim. -/
theorem fingerprint_update_justified (cfg : UsbCfg) (sources : List SrcFile)
    (vol : Volume) (state : StateMap) (id : String) (dry : Bool) (now : Int)
    (fault : String → Bool) (k : String) (fp : Fingerprint)
    (hrec : alookup
      ((alookup (scan_and_copy cfg sources vol state id dry now fault).2.2.1
        id).getD []) k = some fp) :
    alookup ((alookup state id).getD []) k = some fp ∨
    ((scan_and_copy cfg sources vol state id dry now fault).2.2.2.any
      (evJustifies k)) = true := by
  by_cases hfs : ensure_free_space vol.freeBytes cfg.minFreeMb = true
  · have hcond : (!ensure_free_space vol.freeBytes cfg.minFreeMb) = false := by
      rw [hfs]
      rfl
    simp only [scan_and_copy, hcond, Bool.false_eq_true, if_false] at hrec ⊢
    rw [alookup_aset_self] at hrec
    simp only [Option.getD_some] at hrec
    have hres := loop_fpJust (normalizeCopyMode cfg.copyMode) cfg.alwaysCopy
      dry now fault ((alookup state id).getD []) sources
      { dest := (sweepDir sources vol.dest).1,
        dev := (alookup state id).getD [], copied := 0, planned := 0,
        failed := [],
        evs := (sweepDir sources vol.dest).2 ++
          (sweepDir sources vol.legacy).2 }
      (fun k2 fp2 h2 => Or.inl h2) k fp hrec
    rcases hres with hx | hx
    · exact Or.inl hx
    · refine Or.inr ?_
      rw [List.any_append, hx]
      rfl
  · have hfsf : ensure_free_space vol.freeBytes cfg.minFreeMb = false := by
      cases hx : ensure_free_space vol.freeBytes cfg.minFreeMb
      · rfl
      · exact absurd hx hfs
    have hcond : (!ensure_free_space vol.freeBytes cfg.minFreeMb) = true := by
      rw [hfsf]
      rfl
    simp only [scan_and_copy, hcond, if_true] at hrec ⊢
    exact Or.inl hrec

/-- C6 witness: the amended theorem at the identical-skip input — the
fingerprint for `a.csv` is present afterwards and the disjunction is
discharged (here by the skip event in the trace). -/
theorem fingerprint_update_justified_witness :
    alookup
      ((alookup
        (scan_and_copy ⟨50, "skip-identical", false⟩ [⟨"a.csv", [["x"]], 5, 3⟩]
          ⟨[⟨"a.csv", [["x"]], 5, 3⟩], [], 1000000000⟩ [] "usb1" false 200
          exNoFault).2.2.1 "usb1").getD []) "a.csv" = some ⟨5, 3⟩ ∧
    (alookup ((alookup ([] : StateMap) "usb1").getD []) "a.csv" =
        some (⟨5, 3⟩ : Fingerprint) ∨
      ((scan_and_copy ⟨50, "skip-identical", false⟩ [⟨"a.csv", [["x"]], 5, 3⟩]
        ⟨[⟨"a.csv", [["x"]], 5, 3⟩], [], 1000000000⟩ [] "usb1" false 200
        exNoFault).2.2.2.any (evJustifies "a.csv")) = true) :=
  ⟨by decide,
    fingerprint_update_justified ⟨50, "skip-identical", false⟩
      [⟨"a.csv", [["x"]], 5, 3⟩] ⟨[⟨"a.csv", [["x"]], 5, 3⟩], [], 1000000000⟩
      [] "usb1" false 200 exNoFault "a.csv" ⟨5, 3⟩ (by decide)⟩

end UsbCopy
